import Mathlib

/-!
Verification development for the Ollama-compatible inference gateway
(`lmdeploy-server` and `vllm-server`).

The model lifecycle manager (`ModelManager` in
`lmdeploy-server/app/model_manager.py`, with a near-identical twin in
`vllm-server/model_manager.py`) keeps three Python dicts — `_models`,
`_model_configs`, `_last_used` — keyed by model name, plus a per-model
asyncio lock map `_loading_locks`.  Python dicts are embedded here as
association lists over `String` keys: `alookup` is dict lookup, `aset`
is dict assignment (replace in place when the key is present, append
otherwise — the insertion-order semantics of Python dicts), `aerase` is
`del` (the code only deletes keys it has just looked up, and all states
built by the manager have no duplicate keys, so removal of every
occurrence coincides with `del`).

Opaque runtime objects (pipeline / engine handles) are embedded as `Nat`
identifiers; backend construction (`lmdeploy.pipeline(...)` resp.
`AsyncLLMEngine.from_engine_args(...)`) is a parameter
`construct : String → ... → Option Nat`, where `none` covers both an
exception raised by the constructor and the constructor returning `None`.
Timestamps (`time.time()`) are embedded as `Int` parameters.
-/

/-! ### Association lists embedding Python dicts -/

/-- Python dict lookup `d.get(k)` / `k in d` over an association list. -/
def alookup {α : Type} : List (String × α) → String → Option α
  | [], _ => none
  | (k', v) :: rest, k => if k' = k then some v else alookup rest k

/-- Python dict assignment `d[k] = v`: replace the value in place when the
key is present, otherwise append the new binding at the end. -/
def aset {α : Type} : List (String × α) → String → α → List (String × α)
  | [], k, v => [(k, v)]
  | (k', v') :: rest, k, v =>
      if k' = k then (k, v) :: rest else (k', v') :: aset rest k v

/-- Python `del d[k]` for the states the manager builds (no duplicate
keys): drops every binding of `k`. -/
def aerase {α : Type} : List (String × α) → String → List (String × α)
  | [], _ => []
  | (k', v') :: rest, k =>
      if k' = k then aerase rest k else (k', v') :: aerase rest k

/-- Key list of an association list (the dict's key view). -/
def akeys {α : Type} (l : List (String × α)) : List String :=
  l.map Prod.fst

@[simp] theorem akeys_nil {α : Type} : akeys ([] : List (String × α)) = [] := rfl

@[simp] theorem akeys_cons {α : Type} (k : String) (v : α)
    (rest : List (String × α)) : akeys ((k, v) :: rest) = k :: akeys rest := rfl

theorem alookup_aset {α : Type} (l : List (String × α)) (k : String) (v : α)
    (key : String) :
    alookup (aset l k v) key = if k = key then some v else alookup l key := by
  induction l with
  | nil =>
      by_cases h : k = key <;> simp [aset, alookup, h]
  | cons p rest ih =>
      obtain ⟨k', v'⟩ := p
      by_cases h1 : k' = k
      · subst h1
        by_cases h2 : k' = key <;> simp [aset, alookup, h2]
      · by_cases h2 : k' = key
        · subst h2
          have : ¬ k = k' := fun h => h1 h.symm
          simp [aset, alookup, h1, this]
        · simp [aset, alookup, h1, h2, ih]

theorem alookup_aerase {α : Type} (l : List (String × α)) (k : String)
    (key : String) :
    alookup (aerase l k) key = if k = key then none else alookup l key := by
  induction l with
  | nil => by_cases h : k = key <;> simp [aerase, alookup, h]
  | cons p rest ih =>
      obtain ⟨k', v'⟩ := p
      by_cases h1 : k' = k
      · subst h1
        by_cases h2 : k' = key
        · subst h2; simp [aerase, alookup, ih]
        · have : ¬ k' = key := h2
          simp [aerase, alookup, this, ih, h2]
      · by_cases h2 : k' = key
        · subst h2
          have : ¬ k = k' := fun h => h1 h.symm
          simp [aerase, alookup, h1, this]
        · simp [aerase, alookup, h1, h2, ih]

theorem alookup_isSome_iff_mem_akeys {α : Type} (l : List (String × α))
    (k : String) : (alookup l k).isSome ↔ k ∈ akeys l := by
  induction l with
  | nil => simp [alookup]
  | cons p rest ih =>
      obtain ⟨k', v'⟩ := p
      by_cases h : k' = k
      · subst h; simp [alookup]
      · have : ¬ k = k' := fun hh => h hh.symm
        simp [alookup, h, this, ih]

theorem akeys_aset_of_mem {α : Type} (l : List (String × α)) (k : String)
    (v : α) (h : k ∈ akeys l) : akeys (aset l k v) = akeys l := by
  induction l with
  | nil => simp at h
  | cons p rest ih =>
      obtain ⟨k', v'⟩ := p
      by_cases h1 : k' = k
      · subst h1; simp [aset]
      · have hmem : k ∈ akeys rest := by
          rcases List.mem_cons.mp (by simpa using h) with h2 | h2
          · exact absurd h2.symm h1
          · exact h2
        simp [aset, h1, ih hmem]

theorem akeys_aset_of_not_mem {α : Type} (l : List (String × α)) (k : String)
    (v : α) (h : k ∉ akeys l) : akeys (aset l k v) = akeys l ++ [k] := by
  induction l with
  | nil => simp [aset]
  | cons p rest ih =>
      obtain ⟨k', v'⟩ := p
      have h1 : ¬ k' = k := by
        intro hh
        exact h (by simp [hh])
      have h2 : k ∉ akeys rest := by
        intro hh
        exact h (by simp [hh])
      simp [aset, h1, ih h2]

theorem akeys_aerase {α : Type} (l : List (String × α)) (k : String) :
    akeys (aerase l k) = (akeys l).filter (fun x => x ≠ k) := by
  induction l with
  | nil => simp [aerase]
  | cons p rest ih =>
      obtain ⟨k', v'⟩ := p
      by_cases h : k' = k
      · subst h; simp [aerase, ih]
      · simp [aerase, h, ih]

theorem alookup_eq_some_of_mem_nodup {α : Type} (l : List (String × α))
    (k : String) (v : α) (hnd : (akeys l).Nodup) (hmem : (k, v) ∈ l) :
    alookup l k = some v := by
  induction l with
  | nil => simp at hmem
  | cons p rest ih =>
      obtain ⟨k', v'⟩ := p
      have hnd2 := List.nodup_cons.mp (by simpa using hnd)
      rcases List.mem_cons.mp hmem with h | h
      · obtain ⟨rfl, rfl⟩ := Prod.mk.injEq .. ▸ h
        simp [alookup]
      · have hk : k' ≠ k := by
          intro hh
          subst hh
          exact hnd2.1 (by simpa [akeys] using List.mem_map_of_mem Prod.fst h)
        simp [alookup, hk, ih hnd2.2 h]

theorem mem_of_alookup_eq_some {α : Type} (l : List (String × α))
    (k : String) (v : α) (h : alookup l k = some v) : (k, v) ∈ l := by
  induction l with
  | nil => simp [alookup] at h
  | cons p rest ih =>
      obtain ⟨k', v'⟩ := p
      by_cases h1 : k' = k
      · subst h1
        simp [alookup] at h
        simp [h]
      · simp [alookup, h1] at h
        exact List.mem_cons_of_mem _ (ih h)

/-! ### Server configuration (`lmdeploy-server/app/config.py`)

`LMDeployServerConfig` keeps the fields `load_model` consults; fractions
(`gpu_memory_utilization`, `cache_max_entry_count`) are Python floats
carrying exact decimal constants that are only ever selected, never
computed with, so they are embedded as rationals. -/

structure LMDeployServerConfig where
  max_model_len : Nat := 2048
  max_num_seqs : Nat := 256
  tensor_parallel_size : Nat := 1
  gpu_memory_utilization : Rat := 9 / 10
deriving DecidableEq, Repr

/-- The global configuration instance (`config = LMDeployServerConfig()`). -/
def config : LMDeployServerConfig := {}

/-- One entry of `ModelConfig.SUPPORTED_MODELS`, embedded as a record of
optional fields so that Python's `dict.get(key, default)` is `Option.getD`.
The static registry entries only carry `max_model_len`,
`tensor_parallel_size`, `use_case` and `description`; they never contain
`max_num_seqs` or `gpu_memory_utilization` keys, hence those fields are
`none` throughout. -/
structure ModelConfigDict where
  max_model_len : Option Nat := none
  tensor_parallel_size : Option Nat := none
  use_case : Option String := none
  description : Option String := none
  max_num_seqs : Option Nat := none
  gpu_memory_utilization : Option Rat := none
deriving DecidableEq, Repr

/-- `ModelConfig.get_model_config`: the five static registry entries, with
the generic fallback entry (tagged "general") for unknown identifiers. -/
def getModelConfig (model : String) : ModelConfigDict :=
  if model = "microsoft/DialoGPT-medium" then
    { max_model_len := some 1024, tensor_parallel_size := some 1,
      use_case := some "chat",
      description := some "Microsoft DialoGPT medium model for conversation" }
  else if model = "TheBloke/deepseek-coder-1.3b-instruct-AWQ" then
    { max_model_len := some 2048, tensor_parallel_size := some 1,
      use_case := some "code",
      description := some "DeepSeek Coder 1.3B model for code generation" }
  else if model = "meta-llama/Llama-2-7b-chat-hf" then
    { max_model_len := some 4096, tensor_parallel_size := some 1,
      use_case := some "chat", description := some "Llama 2 7B chat model" }
  else if model = "mistralai/Mistral-7B-Instruct-v0.1" then
    { max_model_len := some 8192, tensor_parallel_size := some 1,
      use_case := some "instruction",
      description := some "Mistral 7B instruction-following model" }
  else if model = "codellama/CodeLlama-7b-Python-hf" then
    { max_model_len := some 4096, tensor_parallel_size := some 1,
      use_case := some "code",
      description := some "Code Llama 7B Python specialist" }
  else
    { max_model_len := some 2048, tensor_parallel_size := some 1,
      use_case := some "general",
      description := some ("Custom model: " ++ model) }

theorem getModelConfig_no_seq_no_gpu (model : String) :
    (getModelConfig model).max_num_seqs = none ∧
      (getModelConfig model).gpu_memory_utilization = none := by
  unfold getModelConfig
  repeat' split
  all_goals exact ⟨rfl, rfl⟩

/-! ### Effective engine configuration resolution -/

/-- The `**kwargs` overrides a `load_model` caller may pass; absent keys
are `none` (`kwargs.get(key, default)` is `Option.getD`). -/
structure Overrides where
  max_model_len : Option Nat := none
  max_num_seqs : Option Nat := none
  tensor_parallel_size : Option Nat := none
  cache_max_entry_count : Option Rat := none
  gpu_memory_utilization : Option Rat := none
deriving DecidableEq, Repr

/-- `TurbomindEngineConfig` as built by the LMDeploy manager. -/
structure TurbomindEngineConfig where
  session_len : Nat
  max_batch_size : Nat
  tp : Nat
  cache_max_entry_count : Rat
deriving DecidableEq, Repr

/-- The engine-config construction inside
`lmdeploy-server/app/model_manager.py` `load_model` (lines 76–91):
`session_len` and `tp` resolve override → registry → global config;
`max_batch_size` resolves override → global config; the memory fraction
`cache_max_entry_count` resolves override → the literal `0.8`. -/
def mkEngineConfig (cfg : LMDeployServerConfig) (mc : ModelConfigDict)
    (kw : Overrides) : TurbomindEngineConfig :=
  { session_len := kw.max_model_len.getD (mc.max_model_len.getD cfg.max_model_len)
    max_batch_size := kw.max_num_seqs.getD cfg.max_num_seqs
    tp := kw.tensor_parallel_size.getD
      (mc.tensor_parallel_size.getD cfg.tensor_parallel_size)
    cache_max_entry_count := kw.cache_max_entry_count.getD (8 / 10) }

/-- `AsyncEngineArgs` as built by the vLLM manager
(`vllm-server/model_manager.py` lines 67–74). -/
structure AsyncEngineArgs where
  max_model_len : Nat
  max_num_seqs : Nat
  tensor_parallel_size : Nat
  gpu_memory_utilization : Rat
deriving DecidableEq, Repr

/-- The `AsyncEngineArgs(...)` call at `vllm-server/model_manager.py`
line 73 ends with a `**kwargs` re-expansion.  A per-call override for any
of the four keywords the call also passes by name (`max_model_len`,
`max_num_seqs`, `tensor_parallel_size`, `gpu_memory_utilization`) is
therefore supplied twice, and Python raises
`TypeError: got multiple values for keyword argument` before any engine
args exist.  This predicate is that duplicate-keyword condition. -/
def vllmOverrideClash (kw : Overrides) : Bool :=
  kw.max_model_len.isSome || kw.max_num_seqs.isSome ||
    kw.tensor_parallel_size.isSome || kw.gpu_memory_utilization.isSome

/-- The engine-args construction inside `vllm-server/model_manager.py`
`load_model` (lines 67–74): when a per-call override duplicates one of
the four named keywords, the call raises (`none`; caught by
`load_model`'s `except`); otherwise `max_model_len` and
`tensor_parallel_size` resolve override → registry → global config and
`max_num_seqs` and `gpu_memory_utilization` resolve override → global
config (with every override necessarily absent in this branch).  Extra
`**kwargs` keys beyond these four are forwarded to the external
`AsyncEngineArgs` dataclass and are outside this model. -/
def mkEngineArgs (cfg : LMDeployServerConfig) (mc : ModelConfigDict)
    (kw : Overrides) : Option AsyncEngineArgs :=
  if vllmOverrideClash kw then none
  else
    some
      { max_model_len := kw.max_model_len.getD (mc.max_model_len.getD cfg.max_model_len)
        max_num_seqs := kw.max_num_seqs.getD cfg.max_num_seqs
        tensor_parallel_size := kw.tensor_parallel_size.getD
          (mc.tensor_parallel_size.getD cfg.tensor_parallel_size)
        gpu_memory_utilization := kw.gpu_memory_utilization.getD cfg.gpu_memory_utilization }

/-- The resolution order the specification claims for a single
configuration field: explicit per-call override, else per-model registry
entry, else global default. -/
def specResolve {α : Type} (override registry : Option α) (dflt : α) : α :=
  override.getD (registry.getD dflt)

/-! ### Manager state and sequential operations
(`lmdeploy-server/app/model_manager.py`; `vllm-server/model_manager.py` is
structurally identical apart from the engine construction expression) -/

/-- The `ModelManager`'s mutable dicts: `_models` (pipeline handles),
`_model_configs`, `_last_used`, and the key set of `_loading_locks`
(the lock objects themselves carry no data relevant to sequential runs). -/
structure MgrState where
  models : List (String × Nat)
  modelConfigs : List (String × ModelConfigDict)
  lastUsed : List (String × Int)
  loadingLocks : List String
deriving DecidableEq, Repr

/-- The freshly constructed manager (`ModelManager.__init__`). -/
def MgrState.empty : MgrState :=
  { models := [], modelConfigs := [], lastUsed := [], loadingLocks := [] }

/-- `ModelManager.load_model` (lmdeploy, lines 43–135), sequential run:
return `None` when the backend library is unavailable; return the cached
handle (refreshing `_last_used`) on a cache hit; otherwise ensure a
per-model lock exists, re-check the cache under the lock, build the
engine config, run the constructor, and either cache the result into all
three dicts or return `None` leaving them untouched.  `construct m c =
none` covers both an exception raised by `pipeline(...)` and the pipeline
coming back `None`; the `TurbomindEngineConfig is None` / `pipeline is
None` guards cannot fire when `avail = true` and are subsumed by it. -/
def loadModel (avail : Bool) (construct : String → TurbomindEngineConfig → Option Nat)
    (cfg : LMDeployServerConfig) (now : Int) (st : MgrState) (model : String)
    (kw : Overrides) : Option Nat × MgrState :=
  if ¬ avail then (none, st)
  else
    match alookup st.models model with
    | some pipe => (some pipe, { st with lastUsed := aset st.lastUsed model now })
    | none =>
      let st1 : MgrState :=
        { st with loadingLocks :=
            if model ∈ st.loadingLocks then st.loadingLocks
            else st.loadingLocks ++ [model] }
      match alookup st1.models model with
      | some pipe => (some pipe, { st1 with lastUsed := aset st1.lastUsed model now })
      | none =>
        let mc := getModelConfig model
        let engineCfg := mkEngineConfig cfg mc kw
        match construct model engineCfg with
        | none => (none, st1)
        | some pipe =>
            (some pipe,
              { st1 with
                models := aset st1.models model pipe
                modelConfigs := aset st1.modelConfigs model mc
                lastUsed := aset st1.lastUsed model now })

/-- vLLM `ModelManager.load_model` (`vllm-server/model_manager.py` lines
37–89): same availability check, cache hit, lock creation and
double-check as the LMDeploy manager; under the lock the `try` block
builds `AsyncEngineArgs` — which raises the duplicate-keyword
`TypeError` whenever a per-call override names one of its four keyword
arguments (`mkEngineArgs ... = none`) — and then
`AsyncLLMEngine.from_engine_args` (`fromEngineArgs`, `none` for an
exception); the `except` converts either failure to a `None` return
with the three dicts untouched. -/
def vllmLoadModel (avail : Bool)
    (fromEngineArgs : String → AsyncEngineArgs → Option Nat)
    (cfg : LMDeployServerConfig) (now : Int) (st : MgrState) (model : String)
    (kw : Overrides) : Option Nat × MgrState :=
  if ¬ avail then (none, st)
  else
    match alookup st.models model with
    | some engine => (some engine, { st with lastUsed := aset st.lastUsed model now })
    | none =>
      let st1 : MgrState :=
        { st with loadingLocks :=
            if model ∈ st.loadingLocks then st.loadingLocks
            else st.loadingLocks ++ [model] }
      match alookup st1.models model with
      | some engine => (some engine, { st1 with lastUsed := aset st1.lastUsed model now })
      | none =>
        let mc := getModelConfig model
        match mkEngineArgs cfg mc kw with
        | none => (none, st1)
        | some args =>
          match fromEngineArgs model args with
          | none => (none, st1)
          | some engine =>
              (some engine,
                { st1 with
                  models := aset st1.models model engine
                  modelConfigs := aset st1.modelConfigs model mc
                  lastUsed := aset st1.lastUsed model now })

/-- `ModelManager.unload_model` (lmdeploy, lines 137–154): on a cache hit
the handle's `close()` is attempted inside `try/except` — whether it
raises (`closeRaises`) has no effect on the outcome — and the identifier
is deleted from all three dicts; on a miss nothing changes and the call
returns `False`. -/
def unloadModel (st : MgrState) (model : String) (closeRaises : Bool) :
    Bool × MgrState :=
  match alookup st.models model with
  | some _ =>
      let _ := closeRaises
      (true,
        { st with
          models := aerase st.models model
          modelConfigs := aerase st.modelConfigs model
          lastUsed := aerase st.lastUsed model })
  | none => (false, st)

/-- `ModelManager.cleanup_unused_models` (lmdeploy, lines 334–345): collect
the identifiers whose idle time strictly exceeds `maxIdle`, then unload
each in turn.  `closeRaisesFor` tells whether a given handle's `close()`
raises (irrelevant to the resulting state). -/
def cleanupUnusedModels (now : Int) (st : MgrState) (maxIdle : Int)
    (closeRaisesFor : String → Bool) : MgrState :=
  let toUnload := ((st.lastUsed.filter (fun p => now - p.2 > maxIdle)).map Prod.fst)
  toUnload.foldl (fun s m => (unloadModel s m (closeRaisesFor m)).2) st

/-- Well-formedness the manager maintains: the three dicts list the same
keys in the same order, without duplicates.  (The decidable key-list form;
it entails the extensional same-key-set property via
`alookup_isSome_iff_mem_akeys`.) -/
def WF (st : MgrState) : Prop :=
  (akeys st.models).Nodup ∧
    akeys st.modelConfigs = akeys st.models ∧
    akeys st.lastUsed = akeys st.models

instance : DecidablePred WF := fun st => by
  unfold WF
  infer_instance

/-- The eviction predicate of `cleanup_unused_models`: the entry's idle
time `now - last_used` strictly exceeds the threshold. -/
def shouldEvict (st : MgrState) (now maxIdle : Int) (key : String) : Bool :=
  match alookup st.lastUsed key with
  | some t => now - t > maxIdle
  | none => false

theorem unloadModel_lookup (st : MgrState) (k : String) (c : Bool)
    (hwf : WF st) :
    (∀ key, alookup (unloadModel st k c).2.models key =
        if k = key then none else alookup st.models key) ∧
    (∀ key, alookup (unloadModel st k c).2.modelConfigs key =
        if k = key then none else alookup st.modelConfigs key) ∧
    (∀ key, alookup (unloadModel st k c).2.lastUsed key =
        if k = key then none else alookup st.lastUsed key) ∧
    WF (unloadModel st k c).2 := by
  obtain ⟨hnd, hcfg, hlast⟩ := hwf
  match hm : alookup st.models k with
  | some pipe =>
      refine ⟨?_, ?_, ?_, ?_⟩
      · intro key; simp [unloadModel, hm, alookup_aerase]
      · intro key; simp [unloadModel, hm, alookup_aerase]
      · intro key; simp [unloadModel, hm, alookup_aerase]
      · refine ⟨?_, ?_, ?_⟩
        · simp only [unloadModel, hm, akeys_aerase]
          exact hnd.filter _
        · simp only [unloadModel, hm, akeys_aerase, hcfg]
        · simp only [unloadModel, hm, akeys_aerase, hlast]
  | none =>
      have hmem : k ∉ akeys st.models := by
        intro hk
        have := (alookup_isSome_iff_mem_akeys st.models k).mpr hk
        rw [hm] at this
        simp at this
      have hc : alookup st.modelConfigs k = none := by
        cases hx : alookup st.modelConfigs k with
        | none => rfl
        | some v =>
            have : k ∈ akeys st.models := hcfg ▸
              (alookup_isSome_iff_mem_akeys st.modelConfigs k).mp (by simp [hx])
            exact absurd this hmem
      have hl : alookup st.lastUsed k = none := by
        cases hx : alookup st.lastUsed k with
        | none => rfl
        | some v =>
            have : k ∈ akeys st.models := hlast ▸
              (alookup_isSome_iff_mem_akeys st.lastUsed k).mp (by simp [hx])
            exact absurd this hmem
      refine ⟨?_, ?_, ?_, ?_⟩
      · intro key
        by_cases hk : k = key
        · subst hk; simp [unloadModel, hm]
        · simp [unloadModel, hm, hk]
      · intro key
        by_cases hk : k = key
        · subst hk; simp [unloadModel, hm, hc]
        · simp [unloadModel, hm, hk]
      · intro key
        by_cases hk : k = key
        · subst hk; simp [unloadModel, hm, hl]
        · simp [unloadModel, hm, hk]
      · show WF (unloadModel st k c).2
        simp only [unloadModel, hm]
        exact ⟨hnd, hcfg, hlast⟩

theorem foldl_unload_lookup (cf : String → Bool) (L : List String) :
    ∀ st : MgrState, WF st →
      (∀ key, alookup (L.foldl (fun s m => (unloadModel s m (cf m)).2) st).models key =
          if key ∈ L then none else alookup st.models key) ∧
      (∀ key, alookup (L.foldl (fun s m => (unloadModel s m (cf m)).2) st).modelConfigs key =
          if key ∈ L then none else alookup st.modelConfigs key) ∧
      (∀ key, alookup (L.foldl (fun s m => (unloadModel s m (cf m)).2) st).lastUsed key =
          if key ∈ L then none else alookup st.lastUsed key) ∧
      WF (L.foldl (fun s m => (unloadModel s m (cf m)).2) st) := by
  induction L with
  | nil =>
      intro st hwf
      refine ⟨?_, ?_, ?_, by simpa using hwf⟩ <;> intro key <;> simp
  | cons m L' ih =>
      intro st hwf
      obtain ⟨hum, huc, hul, huwf⟩ := unloadModel_lookup st m (cf m) hwf
      obtain ⟨ihm, ihc, ihl, ihwf⟩ := ih (unloadModel st m (cf m)).2 huwf
      refine ⟨?_, ?_, ?_, by simpa using ihwf⟩
      · intro key
        simp only [List.foldl_cons]
        rw [ihm key]
        by_cases hmem : key ∈ L'
        · simp [hmem]
        · rw [hum key]
          by_cases hk : m = key
          · simp [hmem, hk]
          · have hk' : ¬ key = m := fun hh => hk hh.symm
            simp [hmem, hk, hk']
      · intro key
        simp only [List.foldl_cons]
        rw [ihc key]
        by_cases hmem : key ∈ L'
        · simp [hmem]
        · rw [huc key]
          by_cases hk : m = key
          · simp [hmem, hk]
          · have hk' : ¬ key = m := fun hh => hk hh.symm
            simp [hmem, hk, hk']
      · intro key
        simp only [List.foldl_cons]
        rw [ihl key]
        by_cases hmem : key ∈ L'
        · simp [hmem]
        · rw [hul key]
          by_cases hk : m = key
          · simp [hmem, hk]
          · have hk' : ¬ key = m := fun hh => hk hh.symm
            simp [hmem, hk, hk']

theorem mem_toUnload_iff (st : MgrState) (now maxIdle : Int) (hwf : WF st)
    (key : String) :
    key ∈ ((st.lastUsed.filter (fun p => now - p.2 > maxIdle)).map Prod.fst) ↔
      shouldEvict st now maxIdle key = true := by
  obtain ⟨hnd, _, hlast⟩ := hwf
  have hndl : (akeys st.lastUsed).Nodup := hlast ▸ hnd
  constructor
  · intro hmem
    obtain ⟨⟨k, t⟩, hin, hfst⟩ := List.mem_map.mp hmem
    obtain ⟨hinl, hp⟩ := List.mem_filter.mp hin
    cases hfst
    have hlk := alookup_eq_some_of_mem_nodup st.lastUsed k t hndl hinl
    unfold shouldEvict
    rw [hlk]
    simpa using hp
  · intro hev
    unfold shouldEvict at hev
    cases hx : alookup st.lastUsed key with
    | none => rw [hx] at hev; simp at hev
    | some t =>
        rw [hx] at hev
        have hinl := mem_of_alookup_eq_some st.lastUsed key t hx
        exact List.mem_map.mpr ⟨(key, t), List.mem_filter.mpr ⟨hinl, by simpa using hev⟩, rfl⟩

theorem loadModel_WF (avail : Bool)
    (construct : String → TurbomindEngineConfig → Option Nat)
    (cfg : LMDeployServerConfig) (now : Int) (st : MgrState) (model : String)
    (kw : Overrides) (hwf : WF st) :
    WF (loadModel avail construct cfg now st model kw).2 := by
  obtain ⟨hnd, hcfg, hlast⟩ := hwf
  cases avail with
  | false => simpa [loadModel, WF] using ⟨hnd, hcfg, hlast⟩
  | true =>
      cases hm : alookup st.models model with
      | some pipe =>
          have hmemM : model ∈ akeys st.models :=
            (alookup_isSome_iff_mem_akeys _ _).mp (by simp [hm])
          have hmemL : model ∈ akeys st.lastUsed := hlast ▸ hmemM
          simp [loadModel, WF, hm, akeys_aset_of_mem _ _ _ hmemL, hnd, hcfg, hlast]
      | none =>
          have hmemM : model ∉ akeys st.models := by
            intro hk
            have := (alookup_isSome_iff_mem_akeys st.models model).mpr hk
            rw [hm] at this
            simp at this
          have hmemC : model ∉ akeys st.modelConfigs := by rw [hcfg]; exact hmemM
          have hmemL : model ∉ akeys st.lastUsed := by rw [hlast]; exact hmemM
          cases hc : construct model (mkEngineConfig cfg (getModelConfig model) kw) with
          | none =>
              simp [loadModel, WF, hm, hc, hnd, hcfg, hlast]
          | some pipe =>
              have hdisj : (akeys st.models).Disjoint [model] := by
                intro a ha hb
                rw [List.mem_singleton] at hb
                exact hmemM (hb ▸ ha)
              have hndApp : (akeys st.models ++ [model]).Nodup := by
                rw [List.nodup_append]
                exact ⟨hnd, List.nodup_singleton _, hdisj⟩
              simp [loadModel, WF, hm, hc, akeys_aset_of_not_mem _ _ _ hmemM,
                akeys_aset_of_not_mem _ _ _ hmemC, akeys_aset_of_not_mem _ _ _ hmemL,
                hcfg, hlast, hndApp]

/-! ### Claim theorems: configuration resolution, load/unload/cleanup -/

/-- C2 counterexample: for the memory-utilization field the LMDeploy
manager does not fall back to the configured global default.  With no
per-call override and no registry entry for the field (the registry never
carries one), `load_model` builds `cache_max_entry_count = 0.8` from the
hardcoded literal, while the claimed override → registry → global-default
resolution yields `config.gpu_memory_utilization = 0.9`. -/
theorem c2_config_resolution_counterexample :
    (mkEngineConfig config (getModelConfig "m") {}).cache_max_entry_count ≠
      specResolve (({} : Overrides)).gpu_memory_utilization
        (getModelConfig "m").gpu_memory_utilization
        config.gpu_memory_utilization := by
  have h1 : (mkEngineConfig config (getModelConfig "m") {}).cache_max_entry_count
      = 8 / 10 := rfl
  have h2 : specResolve (({} : Overrides)).gpu_memory_utilization
      (getModelConfig "m").gpu_memory_utilization
      config.gpu_memory_utilization = 9 / 10 := rfl
  rw [h1, h2]
  norm_num

/-- C2 (amended): per-field effective configuration resolution.  In the
LMDeploy manager, max context length (`session_len`) and parallelism
degree (`tp`) resolve override → registry → global default, max sequence
count (`max_batch_size`) resolves override → global default (the static
registry never carries that field), and the memory-utilization fraction
(`cache_max_entry_count`) resolves override → the hardcoded literal
`0.8`, not the configured global default.  In the vLLM manager the
override level never resolves: a per-call override for any of the four
fields is passed both by name and via the `**kwargs` re-expansion, so
`AsyncEngineArgs` raises the duplicate-keyword `TypeError` and
`load_model` returns `None` leaving the dicts untouched; with no
per-call overrides, every field resolves (absent) override → registry →
global default on the actual registry. -/
theorem c2_config_resolution (cfg : LMDeployServerConfig) (model : String)
    (kw : Overrides)
    (fromEngineArgs : String → AsyncEngineArgs → Option Nat) :
    (mkEngineConfig cfg (getModelConfig model) kw).session_len =
      specResolve kw.max_model_len (getModelConfig model).max_model_len
        cfg.max_model_len ∧
    (mkEngineConfig cfg (getModelConfig model) kw).tp =
      specResolve kw.tensor_parallel_size
        (getModelConfig model).tensor_parallel_size cfg.tensor_parallel_size ∧
    (mkEngineConfig cfg (getModelConfig model) kw).max_batch_size =
      specResolve kw.max_num_seqs (getModelConfig model).max_num_seqs
        cfg.max_num_seqs ∧
    (mkEngineConfig cfg (getModelConfig model) kw).cache_max_entry_count =
      kw.cache_max_entry_count.getD (8 / 10) ∧
    (vllmOverrideClash kw = true →
      mkEngineArgs cfg (getModelConfig model) kw = none ∧
      ∀ (now : Int) (st : MgrState), alookup st.models model = none →
        vllmLoadModel true fromEngineArgs cfg now st model kw =
          (none,
            { st with loadingLocks :=
                if model ∈ st.loadingLocks then st.loadingLocks
                else st.loadingLocks ++ [model] })) ∧
    (vllmOverrideClash kw = false →
      mkEngineArgs cfg (getModelConfig model) kw = some
        { max_model_len := specResolve kw.max_model_len
            (getModelConfig model).max_model_len cfg.max_model_len
          max_num_seqs := specResolve kw.max_num_seqs
            (getModelConfig model).max_num_seqs cfg.max_num_seqs
          tensor_parallel_size := specResolve kw.tensor_parallel_size
            (getModelConfig model).tensor_parallel_size cfg.tensor_parallel_size
          gpu_memory_utilization := specResolve kw.gpu_memory_utilization
            (getModelConfig model).gpu_memory_utilization cfg.gpu_memory_utilization }) := by
  obtain ⟨hseq, hgpu⟩ := getModelConfig_no_seq_no_gpu model
  refine ⟨rfl, rfl, ?_, rfl, ?_, ?_⟩
  · simp [mkEngineConfig, specResolve, hseq]
  · intro hclash
    have hargs : mkEngineArgs cfg (getModelConfig model) kw = none := by
      simp [mkEngineArgs, hclash]
    refine ⟨hargs, ?_⟩
    intro now st hmiss
    simp [vllmLoadModel, hmiss, hargs]
  · intro hclash
    simp [mkEngineArgs, hclash, specResolve, hseq, hgpu]

/-- C3: when the backend constructor fails (raises or returns `None`) for
an uncached identifier, `load_model` returns `None` and leaves `_models`,
`_model_configs` and `_last_used` exactly as they were, and a later
`load_model` call for the same identifier reaches the constructor again
and returns whatever it now produces. -/
theorem c3_load_failure_is_clean
    (construct construct' : String → TurbomindEngineConfig → Option Nat)
    (cfg : LMDeployServerConfig) (now now' : Int) (st : MgrState)
    (model : String) (kw : Overrides) (h : Nat)
    (hmiss : alookup st.models model = none)
    (hfail : construct model (mkEngineConfig cfg (getModelConfig model) kw) = none)
    (hretry : construct' model (mkEngineConfig cfg (getModelConfig model) kw) = some h) :
    (loadModel true construct cfg now st model kw).1 = none ∧
    (loadModel true construct cfg now st model kw).2.models = st.models ∧
    (loadModel true construct cfg now st model kw).2.modelConfigs = st.modelConfigs ∧
    (loadModel true construct cfg now st model kw).2.lastUsed = st.lastUsed ∧
    (loadModel true construct' cfg now'
        (loadModel true construct cfg now st model kw).2 model kw).1 = some h := by
  refine ⟨?_, ?_, ?_, ?_, ?_⟩ <;>
    simp [loadModel, hmiss, hfail, hretry]

/-- C3 witness: a concrete failing load on the empty manager, retried
with a succeeding constructor. -/
theorem c3_load_failure_is_clean_witness :
    (loadModel true (fun _ _ => none) config 0 MgrState.empty "m" {}).1 = none ∧
    (loadModel true (fun _ _ => none) config 0 MgrState.empty "m" {}).2.models =
      MgrState.empty.models ∧
    (loadModel true (fun _ _ => some 7) config 1
        (loadModel true (fun _ _ => none) config 0 MgrState.empty "m" {}).2
        "m" {}).1 = some 7 := by
  obtain ⟨h1, h2, _, _, h5⟩ := c3_load_failure_is_clean
    (fun _ _ => none) (fun _ _ => some 7) config 0 1 MgrState.empty "m" {} 7
    rfl rfl rfl
  exact ⟨h1, h2, h5⟩

/-- C4: `unload_model` returns `False` and changes nothing when the
identifier is not cached; when it is cached it returns `True` and removes
the identifier from all three dicts, and whether the handle's `close()`
raises has no effect on the result or the removal. -/
theorem c4_unload_semantics (st : MgrState) (model : String) (closeRaises : Bool) :
    unloadModel st model true = unloadModel st model false ∧
    (alookup st.models model = none →
      unloadModel st model closeRaises = (false, st)) ∧
    (∀ h : Nat, alookup st.models model = some h →
      (unloadModel st model closeRaises).1 = true ∧
      (∀ key, alookup (unloadModel st model closeRaises).2.models key =
          if model = key then none else alookup st.models key) ∧
      (∀ key, alookup (unloadModel st model closeRaises).2.modelConfigs key =
          if model = key then none else alookup st.modelConfigs key) ∧
      (∀ key, alookup (unloadModel st model closeRaises).2.lastUsed key =
          if model = key then none else alookup st.lastUsed key)) := by
  refine ⟨rfl, ?_, ?_⟩
  · intro hm
    simp [unloadModel, hm]
  · intro h hm
    refine ⟨by simp [unloadModel, hm], ?_, ?_, ?_⟩ <;>
      intro key <;> simp [unloadModel, hm, alookup_aerase]

/-- C4 witness: unload on an empty manager returns `False` and no state
change; unload of the one cached entry removes it from all three dicts
with `close()` raising. -/
theorem c4_unload_semantics_witness :
    unloadModel MgrState.empty "m" true = (false, MgrState.empty) ∧
    (unloadModel ⟨[("m", 3)], [("m", {})], [("m", 0)], ["m"]⟩ "m" true).1 = true ∧
    alookup (unloadModel ⟨[("m", 3)], [("m", {})], [("m", 0)], ["m"]⟩ "m" true).2.models "m" = none := by
  refine ⟨(c4_unload_semantics MgrState.empty "m" true).2.1 rfl, ?_, ?_⟩
  · exact ((c4_unload_semantics ⟨[("m", 3)], [("m", {})], [("m", 0)], ["m"]⟩ "m" true).2.2 3 rfl).1
  · have := ((c4_unload_semantics ⟨[("m", 3)], [("m", {})], [("m", 0)], ["m"]⟩ "m" true).2.2 3 rfl).2.1 "m"
    simpa using this

/-- C5: for any idle threshold `d ≥ 0`, `cleanup_unused_models` removes
exactly the cached entries whose idle time `now - last_used` strictly
exceeds `d`, and leaves every other entry's handle, config and last-used
timestamp unchanged — stated pointwise over all identifiers via the
eviction predicate `shouldEvict`. -/
theorem c5_cleanup_evicts_exactly_idle (now : Int) (st : MgrState) (d : Int)
    (cf : String → Bool) (hwf : WF st) (_hd : 0 ≤ d) :
    ∀ key,
      (alookup (cleanupUnusedModels now st d cf).models key =
        if shouldEvict st now d key = true then none else alookup st.models key) ∧
      (alookup (cleanupUnusedModels now st d cf).modelConfigs key =
        if shouldEvict st now d key = true then none else alookup st.modelConfigs key) ∧
      (alookup (cleanupUnusedModels now st d cf).lastUsed key =
        if shouldEvict st now d key = true then none else alookup st.lastUsed key) := by
  intro key
  obtain ⟨hm, hc, hl, _⟩ :=
    foldl_unload_lookup cf
      ((st.lastUsed.filter (fun p => now - p.2 > d)).map Prod.fst) st hwf
  have hiff := mem_toUnload_iff st now d hwf key
  refine ⟨?_, ?_, ?_⟩
  · unfold cleanupUnusedModels
    rw [hm key]
    by_cases hev : shouldEvict st now d key = true
    · simp [hev, hiff.mpr hev]
    · have hnot : key ∉ (st.lastUsed.filter (fun p => now - p.2 > d)).map Prod.fst :=
        fun hmem => hev (hiff.mp hmem)
      simp [hev, hnot]
  · unfold cleanupUnusedModels
    rw [hc key]
    by_cases hev : shouldEvict st now d key = true
    · simp [hev, hiff.mpr hev]
    · have hnot : key ∉ (st.lastUsed.filter (fun p => now - p.2 > d)).map Prod.fst :=
        fun hmem => hev (hiff.mp hmem)
      simp [hev, hnot]
  · unfold cleanupUnusedModels
    rw [hl key]
    by_cases hev : shouldEvict st now d key = true
    · simp [hev, hiff.mpr hev]
    · have hnot : key ∉ (st.lastUsed.filter (fun p => now - p.2 > d)).map Prod.fst :=
        fun hmem => hev (hiff.mp hmem)
      simp [hev, hnot]

/-- C5 witness: a manager holding models `"a"` (idle 10) and `"b"`
(idle 2) cleaned with threshold 3 at time 10: `"a"` is evicted, `"b"`
is kept with handle, config and timestamp intact. -/
theorem c5_cleanup_evicts_exactly_idle_witness :
    (alookup (cleanupUnusedModels 10
        ⟨[("a", 1), ("b", 2)], [("a", {}), ("b", {})], [("a", 0), ("b", 8)], []⟩
        3 (fun _ => false)).models "a" =
      if shouldEvict ⟨[("a", 1), ("b", 2)], [("a", {}), ("b", {})], [("a", 0), ("b", 8)], []⟩
          10 3 "a" = true then none
      else alookup (⟨[("a", 1), ("b", 2)], [("a", {}), ("b", {})], [("a", 0), ("b", 8)], []⟩ : MgrState).models "a") ∧
    (alookup (cleanupUnusedModels 10
        ⟨[("a", 1), ("b", 2)], [("a", {}), ("b", {})], [("a", 0), ("b", 8)], []⟩
        3 (fun _ => false)).models "b" =
      if shouldEvict ⟨[("a", 1), ("b", 2)], [("a", {}), ("b", {})], [("a", 0), ("b", 8)], []⟩
          10 3 "b" = true then none
      else alookup (⟨[("a", 1), ("b", 2)], [("a", {}), ("b", {})], [("a", 0), ("b", 8)], []⟩ : MgrState).models "b") := by
  refine ⟨?_, ?_⟩
  · exact (c5_cleanup_evicts_exactly_idle 10
      ⟨[("a", 1), ("b", 2)], [("a", {}), ("b", {})], [("a", 0), ("b", 8)], []⟩
      3 (fun _ => false) (by decide) (by decide) "a").1
  · exact (c5_cleanup_evicts_exactly_idle 10
      ⟨[("a", 1), ("b", 2)], [("a", {}), ("b", {})], [("a", 0), ("b", 8)], []⟩
      3 (fun _ => false) (by decide) (by decide) "b").1

/-- C10: every manager operation preserves well-formedness: the three
dicts `_models`, `_model_configs`, `_last_used` keep exactly the same
keys (in fact the same key list, without duplicates) across `load_model`
(any availability, constructor outcome and overrides), `unload_model`
(whether or not `close()` raises) and `cleanup_unused_models` (any
threshold).  A successful load appends the identifier to all three
together; an unload removes it from all three together. -/
theorem c10_maps_share_keys (avail : Bool)
    (construct : String → TurbomindEngineConfig → Option Nat)
    (cfg : LMDeployServerConfig) (now : Int) (st : MgrState) (model : String)
    (kw : Overrides) (closeRaises : Bool) (d : Int) (cf : String → Bool)
    (hwf : WF st) :
    WF (loadModel avail construct cfg now st model kw).2 ∧
    WF (unloadModel st model closeRaises).2 ∧
    WF (cleanupUnusedModels now st d cf) := by
  refine ⟨loadModel_WF avail construct cfg now st model kw hwf,
    (unloadModel_lookup st model closeRaises hwf).2.2.2, ?_⟩
  unfold cleanupUnusedModels
  exact (foldl_unload_lookup cf _ st hwf).2.2.2

/-- C10 witness: starting from the empty manager, a successful load, an
unload and a cleanup each yield a well-formed state. -/
theorem c10_maps_share_keys_witness :
    WF (loadModel true (fun _ _ => some 1) config 0 MgrState.empty "m" {}).2 ∧
    WF (unloadModel MgrState.empty "m" false).2 ∧
    WF (cleanupUnusedModels 0 MgrState.empty 3 (fun _ => false)) :=
  c10_maps_share_keys true (fun _ _ => some 1) config 0 MgrState.empty "m" {}
    false 3 (fun _ => false) (by decide)

/-! ### Gateway: chat prompt flattening
(`format_prompt_from_messages`, identical in both servers) -/

/-- A chat message (`ChatMessage` pydantic model): role and content. -/
structure ChatMessage where
  role : String
  content : String
deriving DecidableEq, Repr

/-- One loop iteration of `format_prompt_from_messages`: append the
rendered line for a recognized role, skip any other role. -/
def renderMessage (m : ChatMessage) : Option String :=
  if m.role = "system" then some ("System: " ++ m.content)
  else if m.role = "user" then some ("User: " ++ m.content)
  else if m.role = "assistant" then some ("Assistant: " ++ m.content)
  else none

/-- `format_prompt_from_messages` (`lmdeploy-server/app/server.py`
lines 120–132, `vllm-server/server.py` lines 113–125): build the
`prompt_parts` list by the for-loop over messages, then join with
newlines and append the trailing `"\nAssistant: "`. -/
def format_prompt_from_messages (messages : List ChatMessage) : String :=
  let prompt_parts := messages.foldl
    (fun parts m =>
      match renderMessage m with
      | some line => parts ++ [line]
      | none => parts)
    []
  String.intercalate "\n" prompt_parts ++ "\nAssistant: "

theorem foldl_render_append (messages : List ChatMessage) :
    ∀ parts : List String,
      messages.foldl
          (fun parts m =>
            match renderMessage m with
            | some line => parts ++ [line]
            | none => parts)
          parts
        = parts ++ messages.filterMap renderMessage := by
  induction messages with
  | nil => intro parts; simp
  | cons m rest ih =>
      intro parts
      cases hr : renderMessage m with
      | some line => simp [List.foldl_cons, hr, ih (parts ++ [line])]
      | none => simp [List.foldl_cons, hr, ih parts]

/-- C8: for messages whose roles are all system/user/assistant, the
flattened prompt is exactly the `"Role: content"` lines joined by
newlines followed by the trailing `"\nAssistant: "` (no message is
skipped, so `filterMap` degenerates to `map`). -/
theorem c8_chat_prompt_flattening (messages : List ChatMessage)
    (hroles : ∀ m ∈ messages,
      m.role = "system" ∨ m.role = "user" ∨ m.role = "assistant") :
    format_prompt_from_messages messages =
      String.intercalate "\n"
          (messages.map (fun m =>
            (if m.role = "system" then "System: "
             else if m.role = "user" then "User: "
             else "Assistant: ") ++ m.content))
        ++ "\nAssistant: " := by
  unfold format_prompt_from_messages
  rw [foldl_render_append messages []]
  have hmap : messages.filterMap renderMessage =
      messages.map (fun m =>
        (if m.role = "system" then "System: "
         else if m.role = "user" then "User: "
         else "Assistant: ") ++ m.content) := by
    induction messages with
    | nil => rfl
    | cons m rest ih =>
        have hm := hroles m (List.mem_cons_self m rest)
        have hrest : ∀ x ∈ rest,
            x.role = "system" ∨ x.role = "user" ∨ x.role = "assistant" :=
          fun x hx => hroles x (List.mem_cons_of_mem m hx)
        rcases hm with h | h | h <;>
          simp [List.filterMap_cons, renderMessage, h, ih hrest]
  rw [hmap]
  simp

/-- C8 witness: the claim's concrete scenario — messages
`[{system, "be terse"}, {user, "hi"}]` flatten to exactly
`"System: be terse\nUser: hi\nAssistant: "`. -/
theorem c8_chat_prompt_flattening_witness :
    format_prompt_from_messages
        [⟨"system", "be terse"⟩, ⟨"user", "hi"⟩] =
      "System: be terse\nUser: hi\nAssistant: " := by
  rw [c8_chat_prompt_flattening [⟨"system", "be terse"⟩, ⟨"user", "hi"⟩]
    (by decide)]
  rfl

/-! ### Streaming: the thread-to-async bridge of
`ModelManager.generate_stream` and the HTTP framing of
`server.generate_stream` -/

/-- Tokenizer loop for Python `str.split()` with no argument: split on
whitespace runs, dropping empty tokens; `acc` holds the reversed chars
of the token being read. -/
def pySplitAux : List Char → List Char → List String
  | [], acc => if acc.isEmpty then [] else [String.mk acc.reverse]
  | c :: cs, acc =>
      if c.isWhitespace then
        if acc.isEmpty then pySplitAux cs []
        else String.mk acc.reverse :: pySplitAux cs []
      else pySplitAux cs (c :: acc)

/-- Python `str.split()` with no argument
(`len(full_response.split())` is the gateway's rough token count). -/
def pySplit (s : String) : List String :=
  pySplitAux s.data []

/-- The fields of the `GenerateResponse` pydantic model that the
streaming path populates (`model` and `created_at` are presentation
strings independent of the claims). -/
structure GenerateResponse where
  response : String
  done : Bool
  total_duration : Option Nat := none
  eval_count : Option Nat := none
  eval_duration : Option Nat := none
deriving DecidableEq, Repr

/-- A run of the blocking producer `pipe.stream_infer(...)` inside the
manager: the text fragments it yields (projected through the
`.text` extraction of `sync_stream`) and, when it fails mid-generation,
the exception message it raises after the last fragment. -/
structure ProducerRun where
  frags : List String
  fail : Option String
deriving DecidableEq, Repr

/-- `sync_stream` (`model_manager.py` lines 247–263): iterates the
producer inside `try/except` whose handler logs and `return`s — a
mid-generation failure is swallowed and only the fragments yielded
before it are passed on; the generator then ends normally. -/
def sync_stream (p : ProducerRun) : List String :=
  p.frags

/-- Messages carried by the `queue.Queue` hand-off between the producer
thread and the async consumer. -/
inductive QMsg
  | chunk (s : String)
  | done
  | error (msg : String)
deriving DecidableEq, Repr

/-- `run_stream` (lines 273–280): drain `sync_stream` into the queue as
`chunk` messages and enqueue `done`; its except branch would enqueue
`error`, but `sync_stream` never raises (its whole body is wrapped in
`try/except`), so the queue is always the chunks followed by `done`. -/
def run_stream (p : ProducerRun) : List QMsg :=
  (sync_stream p).map QMsg.chunk ++ [QMsg.done]

/-- The consumer loop of `stream_generator` (lines 286–299): yield the
payload of each `chunk`, break on `done`, and on `error` log the message
and break — the error is not yielded and not raised. -/
def consumeQueue : List QMsg → List String
  | [] => []
  | QMsg.chunk s :: rest => s :: consumeQueue rest
  | QMsg.done :: _ => []
  | QMsg.error _ :: _ => []

/-- The fragment sequence the manager's `stream_generator` delivers to
the gateway for a given producer run. -/
def stream_generator (p : ProducerRun) : List String :=
  consumeQueue (run_stream p)

/-- The `async for` loop of the gateway's `generate_stream`
(`server.py` lines 236–259): accumulate `full_response`, emit one
`done:false` line per chunk, then the final `done:true` line carrying
the duration and the word count of the accumulated text. -/
def streamLoop (dur : Nat) : String → List String → List GenerateResponse
  | full, [] =>
      [{ response := "", done := true, total_duration := some dur,
         eval_count := some (pySplit full).length, eval_duration := some dur }]
  | full, c :: rest =>
      { response := c, done := false } :: streamLoop dur (full ++ c) rest

/-- The gateway's `generate_stream` (lines 216–270): if awaiting the
manager raised, one in-band `Error: ...` final line; if the manager
returned no stream, one empty final line; otherwise the chunk loop. -/
def generate_stream (dur : Nat) :
    Except String (Option (List String)) → List GenerateResponse
  | .error e => [{ response := "Error: " ++ e, done := true, total_duration := some 0 }]
  | .ok none => [{ response := "", done := true, total_duration := some 0 }]
  | .ok (some fs) => streamLoop dur "" fs

theorem streamLoop_spec (dur : Nat) (fs : List String) :
    ∀ acc : String,
      streamLoop dur acc fs =
        fs.map (fun c => { response := c, done := false }) ++
          [{ response := "", done := true, total_duration := some dur,
             eval_count := some (pySplit (fs.foldl (fun r s => r ++ s) acc)).length,
             eval_duration := some dur }] := by
  induction fs with
  | nil => intro acc; simp [streamLoop]
  | cons c rest ih =>
      intro acc
      simp [streamLoop, List.foldl_cons, ih (acc ++ c)]

theorem consumeQueue_chunks_done (fs : List String) :
    consumeQueue (fs.map QMsg.chunk ++ [QMsg.done]) = fs := by
  induction fs with
  | nil => rfl
  | cons c rest ih => simp [consumeQueue, ih]

/-- C9: for every finite streamed generation, every intermediate line
carries `done:false`, and the final line carries `done:true` with
`eval_count` equal to the word count of the concatenation of all
previously yielded fragments. -/
theorem c9_stream_final_accounting (fs : List String) (dur : Nat) :
    (∀ r ∈ (generate_stream dur (.ok (some fs))).dropLast, r.done = false) ∧
    (generate_stream dur (.ok (some fs))).getLast? =
      some { response := "", done := true, total_duration := some dur,
             eval_count := some (pySplit (String.join fs)).length,
             eval_duration := some dur } := by
  have hjoin : String.join fs = fs.foldl (fun r s => r ++ s) "" := rfl
  have hspec := streamLoop_spec dur fs ""
  constructor
  · intro r hr
    rw [show generate_stream dur (.ok (some fs)) = streamLoop dur "" fs from rfl,
      hspec] at hr
    rw [List.dropLast_concat] at hr
    obtain ⟨c, _, rfl⟩ := List.mem_map.mp hr
    rfl
  · rw [show generate_stream dur (.ok (some fs)) = streamLoop dur "" fs from rfl,
      hspec, hjoin]
    simp

/-- C9 witness: fragments `["Hel", "lo"]` produce a final line whose
`eval_count` is the word count of `"Hello"`. -/
theorem c9_stream_final_accounting_witness :
    (generate_stream 3 (.ok (some ["Hel", "lo"]))).getLast? =
      some { response := "", done := true, total_duration := some 3,
             eval_count := some (pySplit "Hello").length,
             eval_duration := some 3 } :=
  (c9_stream_final_accounting ["Hel", "lo"] 3).2

/-- C7 counterexample: a producer that yields `"Hel"` and then fails with
`"boom"` is indistinguishable, at the consumer, from one that yields
`"Hel"` and completes: the emitted line sequence is identical and its
final element is the ordinary `done:true` aggregate — no element carries
the error. -/
theorem c7_stream_error_counterexample :
    generate_stream 5 (.ok (some (stream_generator ⟨["Hel"], some "boom"⟩))) =
      generate_stream 5 (.ok (some (stream_generator ⟨["Hel"], none⟩))) ∧
    generate_stream 5 (.ok (some (stream_generator ⟨["Hel"], some "boom"⟩))) =
      [{ response := "Hel", done := false },
       { response := "", done := true, total_duration := some 5,
         eval_count := some 1, eval_duration := some 5 }] := by
  constructor
  · rfl
  · decide

/-- C7 (amended): a mid-generation producer failure is never thrown to
the consumer (every stage of the bridge is total): the fragments already
yielded are preserved, the sequence simply terminates, and the gateway
then emits the ordinary `done:true` final line — the producer's error is
logged but never delivered in-band (`sync_stream` swallows it before the
queue's `error` message kind, and the consumer loop would break on
`error` without yielding it anyway).  An in-band `Error:` line is
emitted only when awaiting the manager's stream itself raises. -/
theorem c7_stream_error_swallowed (p : ProducerRun) (dur : Nat) (e : String) :
    stream_generator p = p.frags ∧
    generate_stream dur (.ok (some (stream_generator p))) =
      p.frags.map (fun c => { response := c, done := false }) ++
        [{ response := "", done := true, total_duration := some dur,
           eval_count := some (pySplit (String.join p.frags)).length,
           eval_duration := some dur }] ∧
    generate_stream dur (.error e) =
      [{ response := "Error: " ++ e, done := true, total_duration := some 0 }] := by
  have hsg : stream_generator p = p.frags := by
    unfold stream_generator run_stream sync_stream
    exact consumeQueue_chunks_done p.frags
  refine ⟨hsg, ?_, rfl⟩
  rw [hsg]
  rw [show generate_stream dur (.ok (some p.frags)) = streamLoop dur "" p.frags from rfl,
    streamLoop_spec dur p.frags ""]
  rfl

/-! ### Gateway error signalling (`server.py` `/api/generate`,
`ModelManager.generate_text`) -/

/-- An `HTTPException` as raised by the gateway: status code and detail. -/
structure HttpFailure where
  status : Nat
  detail : String
deriving DecidableEq, Repr

/-- `ModelManager.generate_text` (lines 156–211), sequential run: `None`
when the backend library is unavailable; otherwise load (or fetch) the
pipeline and run generation on it — `genFn pipe prompt = none` covers a
generation exception or an empty result list.  The manager returns the
same `None` whether the backend is unavailable, the load failed, or
generation failed. -/
def generate_text (avail : Bool)
    (construct : String → TurbomindEngineConfig → Option Nat)
    (genFn : Nat → String → Option String)
    (cfg : LMDeployServerConfig) (now : Int) (st : MgrState)
    (model prompt : String) : Option String × MgrState :=
  if ¬ avail then (none, st)
  else
    match loadModel avail construct cfg now st model {} with
    | (none, st1) => (none, st1)
    | (some pipe, st1) => (genFn pipe prompt, st1)

/-- The non-streaming path of the `/api/generate` route (`server.py`
lines 170–213): `503` when the module-level availability flag is down,
before the manager is ever consulted; `500` when `generate_text` comes
back with no text; the response text otherwise. -/
def generateEndpoint (avail : Bool)
    (construct : String → TurbomindEngineConfig → Option Nat)
    (genFn : Nat → String → Option String)
    (cfg : LMDeployServerConfig) (now : Int) (st : MgrState)
    (model prompt : String) : Except HttpFailure String :=
  if ¬ avail then Except.error ⟨503, "LMDeploy not available"⟩
  else
    match (generate_text avail construct genFn cfg now st model prompt).1 with
    | none => Except.error ⟨500, "Failed to generate text with model " ++ model⟩
    | some t => Except.ok t

/-- C6 counterexample: the lifecycle manager itself signals backend
unavailability and a per-identifier load failure identically — both
`load_model` and `generate_text` return the same `None` in the two
situations, so the manager's return value gives its caller nothing to
distinguish them by. -/
theorem c6_manager_signal_counterexample :
    (loadModel false (fun _ _ => some 1) config 0 MgrState.empty "m" {}).1 = none ∧
    (loadModel true (fun _ _ => none) config 0 MgrState.empty "m" {}).1 = none ∧
    (generate_text false (fun _ _ => some 1) (fun _ _ => some "ok") config 0
        MgrState.empty "m" "hi").1 =
      (generate_text true (fun _ _ => none) (fun _ _ => some "ok") config 0
        MgrState.empty "m" "hi").1 := by
  refine ⟨rfl, rfl, rfl⟩

/-- C6 (amended): the 503/500 distinction is made at the gateway, not by
the manager's signal: the route checks the module-level availability
flag and answers `503` before invoking generation when the backend
library is unavailable, and maps the manager's `None` (load or
generation failure) to `500` when the backend is available. -/
theorem c6_gateway_distinguishes_statuses
    (construct : String → TurbomindEngineConfig → Option Nat)
    (genFn : Nat → String → Option String)
    (cfg : LMDeployServerConfig) (now : Int) (st : MgrState)
    (model prompt : String) :
    (generateEndpoint false construct genFn cfg now st model prompt =
      Except.error ⟨503, "LMDeploy not available"⟩) ∧
    ((generate_text true construct genFn cfg now st model prompt).1 = none →
      generateEndpoint true construct genFn cfg now st model prompt =
        Except.error ⟨500, "Failed to generate text with model " ++ model⟩) := by
  constructor
  · rfl
  · intro hnone
    simp [generateEndpoint, hnone]

/-- C6 witness: with the flag down the route answers 503; with the flag
up and a failing constructor it answers 500. -/
theorem c6_gateway_distinguishes_statuses_witness :
    (generateEndpoint false (fun _ _ => none) (fun _ _ => some "ok") config 0
        MgrState.empty "m" "hi" =
      Except.error ⟨503, "LMDeploy not available"⟩) ∧
    (generateEndpoint true (fun _ _ => none) (fun _ _ => some "ok") config 0
        MgrState.empty "m" "hi" =
      Except.error ⟨500, "Failed to generate text with model " ++ "m"⟩) :=
  ⟨(c6_gateway_distinguishes_statuses (fun _ _ => none)
      (fun _ _ => some "ok") config 0 MgrState.empty "m" "hi").1,
   (c6_gateway_distinguishes_statuses (fun _ _ => none)
      (fun _ _ => some "ok") config 0 MgrState.empty "m" "hi").2 rfl⟩

/-! ### Single-flight loading under concurrency (C1)

`load_model` is an asyncio coroutine: every dict operation between two
`await` points is atomic, and the only suspension points are acquiring
the per-model `asyncio.Lock` and awaiting the constructor in the
executor.  For one fixed uncached identifier whose constructions
succeed, a caller's observable program is: check the cache (outside the
lock; a hit returns the cached handle), wait for the per-model lock,
re-check the cache under the lock (a hit releases the lock and returns
the cached handle), otherwise run the constructor and, still under the
lock, publish the handle into the cache and return it.

The state below projects the system onto that one identifier: `cache` is
its `_models` entry, `lockHeld` its `_loading_locks` entry, `built`
counts backend-construction calls, and `pcs` gives each concurrent
caller's program counter.  The `k`-th construction returns the handle
`k`, so distinct constructions would be observably distinct handles. -/

/-- Program counter of one `load_model` caller. -/
inductive CPc
  | start
  | wantLock
  | haveLock
  | building
  | done (r : Nat)
deriving DecidableEq, Repr

/-- Whether a caller currently holds the per-model lock. -/
def inLocked : CPc → Bool
  | .haveLock => true
  | .building => true
  | _ => false

/-- Whether a caller has returned. -/
def isDone : CPc → Bool
  | .done _ => true
  | _ => false

/-- System state for one identifier and `pcs.length` concurrent callers. -/
structure Sys where
  cache : Option Nat
  lockHeld : Bool
  built : Nat
  pcs : List CPc
deriving DecidableEq, Repr

/-- `n` callers about to run `load_model` on an identifier never loaded. -/
def initSys (n : Nat) : Sys :=
  { cache := none, lockHeld := false, built := 0,
    pcs := List.replicate n CPc.start }

/-- One atomic step of the interleaved execution of `load_model`:
the initial cache check (lines 51–54), lock acquisition (line 60), the
double-check under the lock (lines 62–64), and constructor completion
plus publication into the cache and lock release (lines 112–126). -/
inductive Step : Sys → Sys → Prop
  | checkHit (s : Sys) (i : Nat) (h : Nat) :
      s.pcs[i]? = some CPc.start → s.cache = some h →
      Step s { s with pcs := s.pcs.set i (CPc.done h) }
  | checkMiss (s : Sys) (i : Nat) :
      s.pcs[i]? = some CPc.start → s.cache = none →
      Step s { s with pcs := s.pcs.set i CPc.wantLock }
  | acquire (s : Sys) (i : Nat) :
      s.pcs[i]? = some CPc.wantLock → s.lockHeld = false →
      Step s { s with lockHeld := true, pcs := s.pcs.set i CPc.haveLock }
  | doubleHit (s : Sys) (i : Nat) (h : Nat) :
      s.pcs[i]? = some CPc.haveLock → s.cache = some h →
      Step s { s with lockHeld := false, pcs := s.pcs.set i (CPc.done h) }
  | doubleMiss (s : Sys) (i : Nat) :
      s.pcs[i]? = some CPc.haveLock → s.cache = none →
      Step s { s with pcs := s.pcs.set i CPc.building }
  | buildDone (s : Sys) (i : Nat) :
      s.pcs[i]? = some CPc.building →
      Step s { s with cache := some s.built, built := s.built + 1,
                      lockHeld := false, pcs := s.pcs.set i (CPc.done s.built) }

/-- States reachable by interleaving `n` callers from the initial state. -/
def Reachable (n : Nat) (s : Sys) : Prop :=
  Relation.ReflTransGen Step (initSys n) s

theorem getElem?_some_lt {α : Type} (l : List α) (i : Nat) (a : α)
    (h : l[i]? = some a) : i < l.length := by
  by_contra hge
  rw [List.getElem?_eq_none (Nat.le_of_not_lt hge)] at h
  cases h

theorem getElem?_set_cases {α : Type} (l : List α) (i j : Nat) (a b : α)
    (hget : (l.set i a)[j]? = some b) :
    (i = j ∧ b = a) ∨ (i ≠ j ∧ l[j]? = some b) := by
  by_cases hij : i = j
  · subst hij
    have hlt : i < l.length := by
      by_contra hge
      rw [List.set_eq_of_length_le (Nat.le_of_not_lt hge)] at hget
      rw [List.getElem?_eq_none (Nat.le_of_not_lt hge)] at hget
      cases hget
    rw [List.getElem?_set_self hlt] at hget
    cases hget
    exact Or.inl ⟨rfl, rfl⟩
  · rw [List.getElem?_set_ne hij] at hget
    exact Or.inr ⟨hij, hget⟩

/-- The inductive invariant of the protocol: the cache holds handle `0`
as soon as (and only when) exactly one construction happened, at most
one caller is inside the locked section (none when the lock is free),
a caller can only be constructing while the cache is empty, and every
returned caller got handle `0` after exactly one construction. -/
structure SysInv (n : Nat) (s : Sys) : Prop where
  len : s.pcs.length = n
  built_le : s.built ≤ 1
  cache_none : s.cache = none ↔ s.built = 0
  cache_val : s.built = 1 → s.cache = some 0
  lock_free : s.lockHeld = false → ∀ (i : Nat) (p : CPc),
      s.pcs[i]? = some p → inLocked p = false
  lock_excl : ∀ (i j : Nat) (p q : CPc), s.pcs[i]? = some p → s.pcs[j]? = some q →
      inLocked p = true → inLocked q = true → i = j
  building_none : ∀ i : Nat, s.pcs[i]? = some CPc.building → s.cache = none
  done_one : ∀ (i : Nat) (r : Nat), s.pcs[i]? = some (CPc.done r) → r = 0 ∧ s.built = 1

theorem sysInv_init (n : Nat) : SysInv n (initSys n) := by
  refine ⟨?_, ?_, ?_, ?_, ?_, ?_, ?_, ?_⟩
  · simp [initSys]
  · simp [initSys]
  · simp [initSys]
  · intro h; cases h
  · intro _ i p hp
    simp only [initSys] at hp
    rw [List.getElem?_replicate] at hp
    by_cases hi : i < n
    · simp [hi] at hp
      rw [← hp]
      rfl
    · simp [hi] at hp
  · intro i j p q hp hq hip _
    simp only [initSys] at hp
    rw [List.getElem?_replicate] at hp
    by_cases hi : i < n
    · simp [hi] at hp
      rw [← hp] at hip
      cases hip
    · simp [hi] at hp
  · intro i hp
    rfl
  · intro i r hp
    simp only [initSys] at hp
    rw [List.getElem?_replicate] at hp
    by_cases hi : i < n
    · simp [hi] at hp
    · simp [hi] at hp

theorem sysInv_step (n : Nat) (s s' : Sys) (hinv : SysInv n s)
    (hstep : Step s s') : SysInv n s' := by
  obtain ⟨hlen, hble, hcn, hcv, hlf, hle, hbn, hdo⟩ := hinv
  cases hstep with
  | checkHit i h hi hc =>
      have hb1 : s.built = 1 := by
        have hb0 : s.built ≠ 0 := by
          intro hb
          rw [hcn.mpr hb] at hc
          cases hc
        omega
      have h0 : h = 0 := by
        have hv := hcv hb1
        rw [hc] at hv
        cases hv
        rfl
      refine ⟨by simpa using hlen, hble, hcn, hcv, ?_, ?_, ?_, ?_⟩
      · intro hlh j p hp
        rcases getElem?_set_cases s.pcs i j _ p hp with ⟨rfl, rfl⟩ | ⟨hne, hold⟩
        · rfl
        · exact hlf hlh j p hold
      · intro i1 j1 p q hp hq hip hiq
        rcases getElem?_set_cases s.pcs i i1 _ p hp with ⟨rfl, rfl⟩ | ⟨hne1, hold1⟩
        · simp [inLocked] at hip
        · rcases getElem?_set_cases s.pcs i j1 _ q hq with ⟨rfl, rfl⟩ | ⟨hne2, hold2⟩
          · simp [inLocked] at hiq
          · exact hle i1 j1 p q hold1 hold2 hip hiq
      · intro j hp
        rcases getElem?_set_cases s.pcs i j _ _ hp with ⟨rfl, hba⟩ | ⟨hne, hold⟩
        · cases hba
        · exact hbn j hold
      · intro j r hp
        rcases getElem?_set_cases s.pcs i j _ _ hp with ⟨rfl, hba⟩ | ⟨hne, hold⟩
        · have hr : r = h := by injection hba
          exact ⟨hr.trans h0, hb1⟩
        · exact hdo j r hold
  | checkMiss i hi hc =>
      refine ⟨by simpa using hlen, hble, hcn, hcv, ?_, ?_, ?_, ?_⟩
      · intro hlh j p hp
        rcases getElem?_set_cases s.pcs i j _ p hp with ⟨rfl, rfl⟩ | ⟨hne, hold⟩
        · rfl
        · exact hlf hlh j p hold
      · intro i1 j1 p q hp hq hip hiq
        rcases getElem?_set_cases s.pcs i i1 _ p hp with ⟨rfl, rfl⟩ | ⟨hne1, hold1⟩
        · simp [inLocked] at hip
        · rcases getElem?_set_cases s.pcs i j1 _ q hq with ⟨rfl, rfl⟩ | ⟨hne2, hold2⟩
          · simp [inLocked] at hiq
          · exact hle i1 j1 p q hold1 hold2 hip hiq
      · intro j hp
        rcases getElem?_set_cases s.pcs i j _ _ hp with ⟨rfl, hba⟩ | ⟨hne, hold⟩
        · cases hba
        · exact hbn j hold
      · intro j r hp
        rcases getElem?_set_cases s.pcs i j _ _ hp with ⟨rfl, hba⟩ | ⟨hne, hold⟩
        · cases hba
        · exact hdo j r hold
  | acquire i hi hl =>
      refine ⟨by simpa using hlen, hble, hcn, hcv, ?_, ?_, ?_, ?_⟩
      · intro hlh
        simp at hlh
      · intro i1 j1 p q hp hq hip hiq
        rcases getElem?_set_cases s.pcs i i1 _ p hp with ⟨hii1, rfl⟩ | ⟨hne1, hold1⟩
        · rcases getElem?_set_cases s.pcs i j1 _ q hq with ⟨hij1, rfl⟩ | ⟨hne2, hold2⟩
          · rw [← hii1, ← hij1]
          · have := hlf hl j1 q hold2
            rw [this] at hiq
            cases hiq
        · have := hlf hl i1 p hold1
          rw [this] at hip
          cases hip
      · intro j hp
        rcases getElem?_set_cases s.pcs i j _ _ hp with ⟨rfl, hba⟩ | ⟨hne, hold⟩
        · cases hba
        · exact hbn j hold
      · intro j r hp
        rcases getElem?_set_cases s.pcs i j _ _ hp with ⟨rfl, hba⟩ | ⟨hne, hold⟩
        · cases hba
        · exact hdo j r hold
  | doubleHit i h hi hc =>
      have hb1 : s.built = 1 := by
        have hb0 : s.built ≠ 0 := by
          intro hb
          rw [hcn.mpr hb] at hc
          cases hc
        omega
      have h0 : h = 0 := by
        have hv := hcv hb1
        rw [hc] at hv
        cases hv
        rfl
      refine ⟨by simpa using hlen, hble, hcn, hcv, ?_, ?_, ?_, ?_⟩
      · intro _ j p hp
        rcases getElem?_set_cases s.pcs i j _ p hp with ⟨rfl, rfl⟩ | ⟨hne, hold⟩
        · rfl
        · by_cases hpl : inLocked p = true
          · exact absurd (hle j i p CPc.haveLock hold hi hpl rfl) (Ne.symm hne)
          · simp at hpl
            exact hpl
      · intro i1 j1 p q hp hq hip hiq
        rcases getElem?_set_cases s.pcs i i1 _ p hp with ⟨rfl, rfl⟩ | ⟨hne1, hold1⟩
        · simp [inLocked] at hip
        · rcases getElem?_set_cases s.pcs i j1 _ q hq with ⟨rfl, rfl⟩ | ⟨hne2, hold2⟩
          · simp [inLocked] at hiq
          · exact hle i1 j1 p q hold1 hold2 hip hiq
      · intro j hp
        rcases getElem?_set_cases s.pcs i j _ _ hp with ⟨rfl, hba⟩ | ⟨hne, hold⟩
        · cases hba
        · exact absurd (hle j i CPc.building CPc.haveLock hold hi rfl rfl)
            (Ne.symm hne)
      · intro j r hp
        rcases getElem?_set_cases s.pcs i j _ _ hp with ⟨rfl, hba⟩ | ⟨hne, hold⟩
        · have hr : r = h := by injection hba
          exact ⟨hr.trans h0, hb1⟩
        · exact hdo j r hold
  | doubleMiss i hi hc =>
      refine ⟨by simpa using hlen, hble, hcn, hcv, ?_, ?_, ?_, ?_⟩
      · intro hlh
        have := hlf hlh i CPc.haveLock hi
        simp [inLocked] at this
      · intro i1 j1 p q hp hq hip hiq
        rcases getElem?_set_cases s.pcs i i1 _ p hp with ⟨hii1, rfl⟩ | ⟨hne1, hold1⟩
        · rcases getElem?_set_cases s.pcs i j1 _ q hq with ⟨hij1, rfl⟩ | ⟨hne2, hold2⟩
          · rw [← hii1, ← hij1]
          · have := hle j1 i q CPc.haveLock hold2 hi hiq rfl
            rw [← hii1, this]
        · rcases getElem?_set_cases s.pcs i j1 _ q hq with ⟨hij1, rfl⟩ | ⟨hne2, hold2⟩
          · have := hle i1 i p CPc.haveLock hold1 hi hip rfl
            rw [← hij1, this]
          · exact hle i1 j1 p q hold1 hold2 hip hiq
      · intro j hp
        exact hc
      · intro j r hp
        rcases getElem?_set_cases s.pcs i j _ _ hp with ⟨rfl, hba⟩ | ⟨hne, hold⟩
        · cases hba
        · exact hdo j r hold
  | buildDone i hi =>
      have hcache : s.cache = none := hbn i hi
      have hb0 : s.built = 0 := hcn.mp hcache
      refine ⟨by simpa using hlen, by show s.built + 1 ≤ 1; omega,
        by constructor <;> intro hx <;> simp at hx, ?_, ?_, ?_, ?_, ?_⟩
      · intro _
        rw [hb0]
      · intro _ j p hp
        rcases getElem?_set_cases s.pcs i j _ p hp with ⟨rfl, rfl⟩ | ⟨hne, hold⟩
        · rfl
        · by_cases hpl : inLocked p = true
          · exact absurd (hle j i p CPc.building hold hi hpl rfl) (Ne.symm hne)
          · simp at hpl
            exact hpl
      · intro i1 j1 p q hp hq hip hiq
        rcases getElem?_set_cases s.pcs i i1 _ p hp with ⟨rfl, rfl⟩ | ⟨hne1, hold1⟩
        · simp [inLocked] at hip
        · rcases getElem?_set_cases s.pcs i j1 _ q hq with ⟨rfl, rfl⟩ | ⟨hne2, hold2⟩
          · simp [inLocked] at hiq
          · exact hle i1 j1 p q hold1 hold2 hip hiq
      · intro j hp
        rcases getElem?_set_cases s.pcs i j _ _ hp with ⟨rfl, hba⟩ | ⟨hne, hold⟩
        · cases hba
        · exact absurd (hle j i CPc.building CPc.building hold hi rfl rfl)
            (Ne.symm hne)
      · intro j r hp
        rcases getElem?_set_cases s.pcs i j _ _ hp with ⟨rfl, hba⟩ | ⟨hne, hold⟩
        · have hr : r = s.built := by injection hba
          exact ⟨hr.trans hb0, by show s.built + 1 = 1; omega⟩
        · exact ⟨(hdo j r hold).1, by show s.built + 1 = 1; omega⟩

theorem sysInv_reachable (n : Nat) (s : Sys) (h : Reachable n s) : SysInv n s := by
  induction h with
  | refl => exact sysInv_init n
  | tail _ hstep ih => exact sysInv_step n _ _ ih hstep

/-- C1: in every interleaving of `n ≥ 1` concurrent `load_model` calls
for one identifier that was never loaded, once all callers have
returned, exactly one backend construction has happened and every
caller returned the handle that single construction produced (handle
`0`; a second construction would have produced the distinct handle
`1`). -/
theorem c1_single_flight (n : Nat) (s : Sys) (hreach : Reachable n s)
    (hn : 0 < n) (hdone : ∀ p ∈ s.pcs, isDone p = true) :
    s.built = 1 ∧ ∀ (i r : Nat), s.pcs[i]? = some (CPc.done r) → r = 0 := by
  have hinv := sysInv_reachable n s hreach
  have hlen := hinv.len
  have hne : s.pcs ≠ [] := by
    intro hnil
    rw [hnil] at hlen
    simp at hlen
    omega
  obtain ⟨p, hp⟩ := List.exists_mem_of_ne_nil s.pcs hne
  have hpd := hdone p hp
  obtain ⟨i, hi, hget⟩ := List.getElem_of_mem hp
  have hgetOpt : s.pcs[i]? = some p := by
    rw [List.getElem?_eq_getElem hi, hget]
  cases p with
  | done r =>
      exact ⟨(hinv.done_one i r hgetOpt).2, fun j r' hj => (hinv.done_one j r' hj).1⟩
  | start => simp [isDone] at hpd
  | wantLock => simp [isDone] at hpd
  | haveLock => simp [isDone] at hpd
  | building => simp [isDone] at hpd

theorem c1_trace :
    Reachable 2 (Sys.mk (some 0) false 1 [CPc.done 0, CPc.done 0]) := by
  refine Relation.ReflTransGen.head (Step.checkMiss _ 0 rfl rfl) ?_
  refine Relation.ReflTransGen.head (Step.acquire _ 0 rfl rfl) ?_
  refine Relation.ReflTransGen.head (Step.doubleMiss _ 0 rfl rfl) ?_
  refine Relation.ReflTransGen.head (Step.buildDone _ 0 rfl) ?_
  refine Relation.ReflTransGen.head (Step.checkHit _ 1 0 rfl rfl) ?_
  exact Relation.ReflTransGen.refl

/-- C1 witness: a complete interleaving of two callers — the first takes
the lock, misses the double-check, builds and publishes handle `0`; the
second then hits the cache — ends with one construction and both callers
holding handle `0`. -/
theorem c1_single_flight_witness :
    (Sys.mk (some 0) false 1 [CPc.done 0, CPc.done 0]).built = 1 ∧
    ∀ (i r : Nat),
      (Sys.mk (some 0) false 1 [CPc.done 0, CPc.done 0]).pcs[i]? =
          some (CPc.done r) → r = 0 :=
  c1_single_flight 2 (Sys.mk (some 0) false 1 [CPc.done 0, CPc.done 0])
    c1_trace (by decide) (by decide)

/-- C2 witness: a concrete per-call override (`max_model_len = 4096`)
makes the vLLM engine-args construction raise the duplicate-keyword
`TypeError` and the vLLM `load_model` return `None` on an uncached
identifier. -/
theorem c2_config_resolution_witness :
    mkEngineArgs config (getModelConfig "m")
        { max_model_len := some 4096 } = none ∧
    (vllmLoadModel true (fun _ _ => some 1) config 0 MgrState.empty "m"
        { max_model_len := some 4096 }).1 = none := by
  have h := (c2_config_resolution config "m" { max_model_len := some 4096 }
    (fun _ _ => some 1)).2.2.2.2.1 rfl
  refine ⟨h.1, ?_⟩
  rw [h.2 0 MgrState.empty rfl]
